import Mathlib

/-!
# ERC-20 transfer form (`src/components/main.component.js`)

The component `Main` is embedded as pure functions over an explicit state record.
Every call that leaves the component (notices, state setters, contract
construction, contract reads and writes, wallet RPC requests) is recorded as an
`Effect` in a trace, and every answer of an external collaborator (wallet, RPC
node, token contract, the `ethers` library) is an input of the embedding.
-/

namespace Main

/-! ## Data model -/

/-- The `decimals` state cell is a JavaScript number. Its only writers are the
initial value `18` and `setDecimals(Number(d))`; `finite n` is a finite number,
`nonFinite` is the case in which `isFinite(decimals)` is false. -/
inductive JSNumber where
  | finite (n : Nat)
  | nonFinite
  deriving DecidableEq, Repr

/-- A thrown JavaScript value as seen through `e?.shortMessage` and `e?.message`:
an absent property (or a thrown `null`) is `none`. -/
structure JSError where
  shortMessage : Option String
  message : Option String
  deriving DecidableEq, Repr

/-- The nine `useState` cells of `Main` (lines 13-23). Providers and signers are
opaque handles, identified by a number; `none` is `null`. -/
structure State where
  account : String
  provider : Option Nat
  signer : Option Nat
  tokenAddress : String
  receiverAddress : String
  transferAmount : String
  decimals : JSNumber
  symbol : String
  busy : Bool
  deriving DecidableEq, Repr

/-- The state right after the first render: the `useState` initial values. -/
def initialState : State :=
  { account := "", provider := none, signer := none, tokenAddress := "",
    receiverAddress := "", transferAmount := "", decimals := JSNumber.finite 18,
    symbol := "TOKEN", busy := false }

/-- The transaction response returned by `writable.transfer(...)`; `hash` is the
identifier of the submitted transaction. -/
structure Tx where
  hash : String
  deriving DecidableEq, Repr

/-- A receipt is a JavaScript object: a finite list of named properties. -/
structure Receipt where
  props : List (String × String)
  deriving DecidableEq, Repr

/-- Property read `obj.name`: `none` is `undefined`. -/
def Receipt.get (r : Receipt) (name : String) : Option String :=
  (r.props.find? (fun p => p.1 == name)).map (fun p => p.2)

/-- Conversion of a property value inside a template literal: `undefined`
prints as the text "undefined". -/
def jsString : Option String → String
  | some v => v
  | none => "undefined"

/-- JavaScript `a || b` on an optional string: `undefined` and the empty string
are falsy. -/
def jsOr (a : Option String) (b : String) : String :=
  match a with
  | some m => if m = "" then b else m
  | none => b

/-- Everything `transfer` and `connect` do to the outside world. -/
inductive Effect where
  | alert (msg : String)
  | setBusy (b : Bool)
  | newContract (address : String) (runner : Nat)
  | readDecimals
  | writeTransfer (recipient : String) (amount : Int)
  | waitReceipt (txHash : String)
  | consoleError (e : JSError)
  | request (method : String) (params : List String)
  deriving DecidableEq, Repr

/-- The effect of one recorded call on the component state: only `setBusy`
writes a state cell. -/
def applyEffect (s : State) : Effect → State
  | Effect.setBusy b => { s with busy := b }
  | _ => s

/-- The state after a whole trace of effects. -/
def applyTrace (s : State) (t : List Effect) : State :=
  t.foldl applyEffect s

/-! ## transfer (lines 105-126) -/

/-- The answers of the collaborators `transfer` talks to. `construct` is
`new Contract(tokenAddress, ERC20_ABI, signer)` (an error if it throws),
`decimalsRead` is `writable.decimals()`, `parseUnits` is the library function of
that name, `transferCall` is `writable.transfer(receiver, value)` and `wait` is
`tx.wait()`. -/
structure TransferEnv where
  construct : String → Nat → Option JSError
  decimalsRead : Except JSError Nat
  parseUnits : String → Nat → Except JSError Int
  transferCall : String → Int → Except JSError Tx
  wait : Tx → Except JSError Receipt

/-- Line 122: `e?.shortMessage || e?.message || "Hata"`. -/
def failureText (e : JSError) : String :=
  jsOr e.shortMessage (jsOr e.message "Hata")

/-- Line 114: `Number(isFinite(decimals) ? decimals : await writable.decimals().catch(() => 18))`,
with the trace of the read call when one is made. -/
def resolveDecimals (s : State) (env : TransferEnv) : List Effect × Nat :=
  match s.decimals with
  | JSNumber.finite n => ([], n)
  | JSNumber.nonFinite =>
    ([Effect.readDecimals],
      match env.decimalsRead with
      | Except.ok v => v
      | Except.error _ => 18)

/-- The `try` block, lines 112-119: the trace it leaves and the value it threw,
if any. -/
def transferTry (s : State) (sg : Nat) (env : TransferEnv) : List Effect × Option JSError :=
  let t0 := [Effect.setBusy true, Effect.newContract s.tokenAddress sg]
  match env.construct s.tokenAddress sg with
  | some e => (t0, some e)
  | none =>
    let t1 := t0 ++ (resolveDecimals s env).1
    let d := (resolveDecimals s env).2
    match env.parseUnits s.transferAmount d with
    | Except.error e => (t1, some e)
    | Except.ok value =>
      let t2 := t1 ++ [Effect.writeTransfer s.receiverAddress value]
      match env.transferCall s.receiverAddress value with
      | Except.error e => (t2, some e)
      | Except.ok tx =>
        let t3 := t2 ++ [Effect.waitReceipt tx.hash]
        match env.wait tx with
        | Except.error e => (t3, some e)
        | Except.ok receipt =>
          (t3 ++ [Effect.alert ("Transfer OK: " ++ jsString (receipt.get "transactionHash"))],
            none)

/-- The `catch` block, lines 120-122. -/
def transferCatch : Option JSError → List Effect
  | some e => [Effect.consoleError e, Effect.alert (failureText e)]
  | none => []

/-- The trace of one call of `transfer()`: the four guards of lines 106-109,
then `try`, `catch` and `finally`. -/
def transferTrace (s : State) (env : TransferEnv) : List Effect :=
  if s.tokenAddress = "" then [Effect.alert "Token adresi gerekli."]
  else if s.receiverAddress = "" then [Effect.alert "Alıcı adresi gerekli."]
  else if s.transferAmount = "" then [Effect.alert "Miktar gerekli."]
  else
    match s.signer with
    | none => [Effect.alert "Önce cüzdanı bağla."]
    | some sg =>
      (transferTry s sg env).1 ++ transferCatch (transferTry s sg env).2
        ++ [Effect.setBusy false]

/-- One call of `transfer()`: the state it leaves and the trace of its effects. -/
def transfer (s : State) (env : TransferEnv) : State × List Effect :=
  (applyTrace s (transferTrace s env), transferTrace s env)

/-- The four preconditions of `transfer()`. -/
def validated (s : State) : Prop :=
  s.tokenAddress ≠ "" ∧ s.receiverAddress ≠ "" ∧ s.transferAmount ≠ "" ∧ s.signer ≠ none

instance (s : State) : Decidable (validated s) := by
  unfold validated; infer_instance

/-- Recognises a write call. -/
def Effect.isWrite : Effect → Bool
  | Effect.writeTransfer _ _ => true
  | _ => false

/-- Recognises the construction of a contract handle. -/
def Effect.isNewContract : Effect → Bool
  | Effect.newContract _ _ => true
  | _ => false

/-- Recognises a notice. -/
def Effect.isAlert : Effect → Bool
  | Effect.alert _ => true
  | _ => false

/-- Recognises a write of the busy flag. -/
def Effect.isSetBusy : Effect → Bool
  | Effect.setBusy _ => true
  | _ => false

/-- Recognises a wallet RPC request. -/
def Effect.isRequest : Effect → Bool
  | Effect.request _ _ => true
  | _ => false

/-- The precondition checks in the order the spec lists them, each with its
notice. -/
def preconditions (s : State) : List (Bool × String) :=
  [ (s.tokenAddress != "", "Token adresi gerekli."),
    (s.receiverAddress != "", "Alıcı adresi gerekli."),
    (s.transferAmount != "", "Miktar gerekli."),
    (s.signer.isSome, "Önce cüzdanı bağla.") ]

/-- The notice of the first precondition that does not hold, if any. -/
def firstMissing (s : State) : Option String :=
  ((preconditions s).find? (fun p => !p.1)).map (fun p => p.2)

/-! ## connect (lines 87-102) -/

/-- What `connect` sees: whether `window.ethereum` exists, the configured
`REACT_APP_CHAIN_ID`, whether each wallet request rejects, and the conversion
`Number(want).toString(16)`. -/
structure ConnectEnv where
  ethereum : Bool
  chainId : Option String
  requestAccounts : Option JSError
  switchChain : Option JSError
  toHex : String → String

/-- One call of `connect()`: the trace of its effects and the value it rejects
with, if any. It calls no state setter. -/
def connectTrace (env : ConnectEnv) : List Effect × Option JSError :=
  if !env.ethereum then ([Effect.alert "MetaMask gerekli."], none)
  else
    let t0 := [Effect.request "eth_requestAccounts" []]
    match env.requestAccounts with
    | some e => (t0, some e)
    | none =>
      match env.chainId with
      | none => (t0, none)
      | some want =>
        if want = "" then (t0, none)
        else
          let t1 := t0 ++ [Effect.request "wallet_switchEthereumChain" ["0x" ++ env.toHex want]]
          match env.switchChain with
          | some _ => (t1, none)
          | none => (t1, none)

/-- One call of `connect()`: the state it leaves and the trace of its effects. -/
def connect (s : State) (env : ConnectEnv) : State × List Effect :=
  (applyTrace s (connectTrace env).1, (connectTrace env).1)

/-! ## Token metadata loader (lines 62-84) -/

/-- Lines 62-65, the `useMemo` result: `null` when the address is empty or no
provider is available, otherwise a contract handle for that address on that
provider. -/
def roContract (tokenAddress : String) (provider : Option Nat) : Option (String × Nat) :=
  if tokenAddress = "" then none else provider.map (fun p => (tokenAddress, p))

/-- One run of the metadata effect (lines 68-84): the `roContract` its closure
captured, its own `cancelled` flag, and whether the continuation after the
`await` of line 73 has already run. -/
structure Lookup where
  contract : Option (String × Nat)
  cancelled : Bool
  settled : Bool
  deriving DecidableEq, Repr

/-- A record of one execution of lines 78-79 (`setDecimals`, `setSymbol`):
which effect run issued it, the address that run had looked up, the token
address held by the component at that moment, the number of effect runs
started so far, and the two values written. -/
structure MetaWrite where
  lookup : Nat
  address : String
  current : String
  started : Nat
  decimals : JSNumber
  symbol : String
  deriving DecidableEq, Repr

/-- The part of the component the metadata loader reads and writes, the effect
runs started so far (oldest first; the cleanup registered with React is that of
the last one) and the log of the writes made. -/
structure MetaState where
  tokenAddress : String
  provider : Option Nat
  decimals : JSNumber
  symbol : String
  effects : List Lookup
  writes : List MetaWrite
  deriving DecidableEq, Repr

/-- After the first render: empty address, no provider, so `roContract` is
`null`; the effect has run once and returned at line 71. -/
def metaInit : MetaState :=
  { tokenAddress := "", provider := none, decimals := JSNumber.finite 18, symbol := "TOKEN",
    effects := [{ contract := none, cancelled := false, settled := false }], writes := [] }

/-- Line 83, the cleanup of the effect run registered last: `cancelled = true`. -/
def cleanupLast : List Lookup → List Lookup
  | [] => []
  | [l] => [{ l with cancelled := true }]
  | l :: m :: rest => l :: cleanupLast (m :: rest)

/-- A render with new values of the two `useMemo` dependencies. When neither
changed the memo keeps its value; when the memo value is `null` before and
after, the effect dependency is unchanged; in both cases no effect runs.
Otherwise React runs the cleanup of the previous effect run and then the
effect again, with the new `roContract`; no continuation of a lookup runs
between the two. -/
def rerender (σ : MetaState) (tokenAddress : String) (provider : Option Nat) : MetaState :=
  if (tokenAddress = σ.tokenAddress ∧ provider = σ.provider) ∨
      (roContract σ.tokenAddress σ.provider = none ∧ roContract tokenAddress provider = none) then
    { σ with tokenAddress := tokenAddress, provider := provider }
  else
    { σ with
      tokenAddress := tokenAddress
      provider := provider
      effects := cleanupLast σ.effects ++
        [{ contract := roContract tokenAddress provider, cancelled := false, settled := false }] }

/-- Lines 74-75: a failed read call is replaced by its default. -/
def orDefault {α : Type} (r : Except JSError α) (dflt : α) : α :=
  match r with
  | Except.ok v => v
  | Except.error _ => dflt

/-- The continuation of effect run `i` after line 73, once both read calls have
settled with the results `d` and `sym`: lines 77-80. A run whose `roContract` was
`null` returned at line 71 and has no continuation. -/
def settle (σ : MetaState) (i : Nat) (d : Except JSError Nat) (sym : Except JSError String) :
    MetaState :=
  match σ.effects[i]? with
  | none => σ
  | some l =>
    match l.contract with
    | none => σ
    | some c =>
      if l.settled then σ
      else if l.cancelled then
        { σ with effects := σ.effects.set i { l with settled := true } }
      else
        { σ with
          effects := σ.effects.set i { l with settled := true }
          decimals := JSNumber.finite (orDefault d 18)
          symbol := orDefault sym "TOKEN"
          writes := σ.writes ++
            [{ lookup := i, address := c.1, current := σ.tokenAddress,
               started := σ.effects.length,
               decimals := JSNumber.finite (orDefault d 18), symbol := orDefault sym "TOKEN" }] }

/-- What can happen to the metadata loader: the user edits the token address
(line 151), the session effect installs a provider (line 29), or the read calls
of some effect run settle. -/
inductive MetaEvent where
  | setTokenAddress (a : String)
  | setProvider (p : Nat)
  | settle (i : Nat) (d : Except JSError Nat) (sym : Except JSError String)

/-- One step of the metadata loader. -/
def metaStep (σ : MetaState) : MetaEvent → MetaState
  | MetaEvent.setTokenAddress a => rerender σ a σ.provider
  | MetaEvent.setProvider p => rerender σ σ.tokenAddress (some p)
  | MetaEvent.settle i d sym => settle σ i d sym

/-- The state after a sequence of events, starting from the first render. -/
def metaRun (events : List MetaEvent) : MetaState :=
  events.foldl metaStep metaInit

/-! ## Wallet session manager (lines 26-59) -/

/-- Where one call of `refresh` (lines 31-46) is suspended: at the `await` of
line 33, of line 35, of line 37 (holding the signer `s`), or finished. -/
inductive RefreshPc where
  | awaitAccounts
  | awaitSigner
  | awaitAddress (s : Nat)
  | done
  deriving DecidableEq, Repr

/-- What an awaited promise of `refresh` settles with. -/
inductive Answer where
  | accounts (accs : List String)
  | signer (s : Nat)
  | address (a : String)
  | failure
  deriving DecidableEq, Repr

/-- A record of one `setSigner` / `setAccount` call: the call of `refresh` that
made it, how many calls of `refresh` had been started, and whether the
component was still mounted. -/
structure SessionWrite where
  refresh : Nat
  started : Nat
  mounted : Bool
  deriving DecidableEq, Repr

/-- The session cells, whether the component is mounted and its listeners are
registered, every call of `refresh` started so far, and the log of writes. -/
structure SessionState where
  provider : Option Nat
  signer : Option Nat
  account : String
  mounted : Bool
  listening : Bool
  refreshes : List RefreshPc
  writes : List SessionWrite
  deriving DecidableEq, Repr

/-- Before the session effect has run. -/
def sessionInit : SessionState :=
  { provider := none, signer := none, account := "", mounted := true, listening := false,
    refreshes := [], writes := [] }

/-- What can happen to the session manager: the effect runs on mount (with or
without `window.ethereum`, wrapping it in provider `prov`), the wallet emits
`accountsChanged`, the component is torn down, or an awaited promise of the
`i`-th call of `refresh` settles. -/
inductive SessionEvent where
  | mount (ethereum : Bool) (prov : Nat)
  | accountsChanged
  | unmount
  | resume (i : Nat) (a : Answer)
  deriving DecidableEq, Repr

/-- Lines 39-40 and 43-44: `setSigner(null); setAccount("")` by call `i`. -/
def clearSession (σ : SessionState) (i : Nat) : SessionState :=
  { σ with
    signer := none
    account := ""
    refreshes := σ.refreshes.set i RefreshPc.done
    writes := σ.writes ++ [{ refresh := i, started := σ.refreshes.length, mounted := σ.mounted }] }

/-- The `i`-th call of `refresh` continues after an `await`. Nothing in lines
31-46 looks at whether the component is still mounted or whether a later call
of `refresh` exists. -/
def resume (σ : SessionState) (i : Nat) (a : Answer) : SessionState :=
  match σ.refreshes[i]?, a with
  | some RefreshPc.awaitAccounts, Answer.accounts accs =>
    if accs.length ≠ 0 then { σ with refreshes := σ.refreshes.set i RefreshPc.awaitSigner }
    else clearSession σ i
  | some RefreshPc.awaitSigner, Answer.signer s =>
    { σ with
      signer := some s
      refreshes := σ.refreshes.set i (RefreshPc.awaitAddress s)
      writes := σ.writes ++ [{ refresh := i, started := σ.refreshes.length, mounted := σ.mounted }] }
  | some (RefreshPc.awaitAddress _), Answer.address addr =>
    { σ with
      account := addr
      refreshes := σ.refreshes.set i RefreshPc.done
      writes := σ.writes ++ [{ refresh := i, started := σ.refreshes.length, mounted := σ.mounted }] }
  | some RefreshPc.awaitAccounts, Answer.failure => clearSession σ i
  | some RefreshPc.awaitSigner, Answer.failure => clearSession σ i
  | some (RefreshPc.awaitAddress _), Answer.failure => clearSession σ i
  | _, _ => σ

/-- One step of the session manager. -/
def sessionStep (σ : SessionState) : SessionEvent → SessionState
  | SessionEvent.mount ethereum prov =>
    if ethereum then
      { σ with provider := some prov, listening := true,
               refreshes := σ.refreshes ++ [RefreshPc.awaitAccounts] }
    else σ
  | SessionEvent.accountsChanged =>
    if σ.listening then { σ with refreshes := σ.refreshes ++ [RefreshPc.awaitAccounts] } else σ
  | SessionEvent.unmount => { σ with mounted := false, listening := false }
  | SessionEvent.resume i a => resume σ i a

/-- The state after a sequence of events. -/
def sessionRun (events : List SessionEvent) : SessionState :=
  events.foldl sessionStep sessionInit

/-! ## Amount conversion -/

/-- The value of one decimal digit character. -/
def digitValue (c : Char) : Nat :=
  c.toNat - 48

/-- Reads a string of decimal digits, most significant first. -/
def readDigits (cs : List Char) : Nat :=
  cs.foldl (fun acc c => 10 * acc + digitValue c) 0

/-- The digits before the first point of a numeral. -/
def wholePart (cs : List Char) : List Char :=
  cs.takeWhile (fun c => c != '.')

/-- The characters after the first point of a numeral. -/
def fractionPart (cs : List Char) : List Char :=
  (cs.dropWhile (fun c => c != '.')).drop 1

/-- The bound of the signed 512-bit range, two to the power 511. -/
def signedLimit : Nat :=
  6703903964971298549787012499102923063739682910296196688861780721860882015036773488400937149083451713845015929093243025426876941405973284973216824503042048

/-- The library function `parseUnits(value, d)` of `ethers` version 6, imported
at line 3 and not part of the repository. It returns
`FixedNumber.fromString(value, { decimals: d, width: 512 }).value`: the text is an
optional minus sign, digits, an optional point and digits, with one digit at
least; `d` may not exceed 80; the fraction is padded with zeros to `d` digits
and every digit beyond the `d`-th must be a zero; sign, whole part and the
first `d` fraction digits are read as one integer, which must lie in the
signed 512-bit range. An error is given by its short message. -/
def parseUnits (text : String) (d : Nat) : Except String Int :=
  let negative := text.toList.head? == some '-'
  let body := if negative then text.toList.drop 1 else text.toList
  let whole := wholePart body
  let fraction := fractionPart body
  if !(whole.all Char.isDigit && fraction.all Char.isDigit
      && decide (0 < whole.length + fraction.length)) then
    Except.error "invalid FixedNumber string value"
  else if 80 < d then
    Except.error "invalid FixedNumber decimals (too large)"
  else if !((fraction.drop d).all (fun c => c == '0')) then
    Except.error "too many decimals for format"
  else
    let digits := whole ++ (fraction ++ List.replicate (d - fraction.length) '0').take d
    let value : Int :=
      if negative then -((readDigits digits : Nat) : Int) else ((readDigits digits : Nat) : Int)
    if -(signedLimit : Int) ≤ value ∧ value < (signedLimit : Int) then Except.ok value
    else Except.error "overflow"

/-- The error object the library throws: the short message, and a long message
that repeats it and appends the details of the failed call (argument, value,
code, version), which are left out here. -/
def libraryError (short : String) : JSError :=
  { shortMessage := some short, message := some (short ++ " (details of the call)") }

/-- The conversion as `transfer` meets it: a value or a thrown error object. -/
def libraryParseUnits (text : String) (d : Nat) : Except JSError Int :=
  match parseUnits text d with
  | Except.ok v => Except.ok v
  | Except.error short => Except.error (libraryError short)

/-- The decimal digits and their values. -/
def decimalDigit (c : Char) : Option Nat :=
  if c = '0' then some 0
  else if c = '1' then some 1
  else if c = '2' then some 2
  else if c = '3' then some 3
  else if c = '4' then some 4
  else if c = '5' then some 5
  else if c = '6' then some 6
  else if c = '7' then some 7
  else if c = '8' then some 8
  else if c = '9' then some 9
  else none

/-- The number denoted by a string of digits written before the point. -/
def wholeValue : List Char → ℚ
  | [] => 0
  | c :: cs => (((decimalDigit c).getD 0 : Nat) : ℚ) * 10 ^ cs.length + wholeValue cs

/-- The number denoted by a string of digits written after the point: the
first digit counts tenths, the next hundredths, and so on. -/
def fractionValue : List Char → ℚ
  | [] => 0
  | c :: cs => ((((decimalDigit c).getD 0 : Nat) : ℚ) + fractionValue cs) / 10

/-- The number a decimal numeral with whole digits `w` and fraction digits `f`
denotes. -/
def decimalValue (w f : List Char) : ℚ :=
  wholeValue w + fractionValue f

/-- The text of a decimal numeral: the whole digits alone, or whole digits,
a point and fraction digits. -/
def isNumeralText (text : String) (w f : List Char) : Prop :=
  (∀ c ∈ w, (decimalDigit c).isSome = true) ∧ (∀ c ∈ f, (decimalDigit c).isSome = true) ∧
  0 < w.length + f.length ∧
  (text.toList = w ++ '.' :: f ∨ (text.toList = w ∧ f = []))

/-! ## Spec-side notions and example inputs -/

/-- A collaborator set in which every call succeeds; the receipt has the
properties of a transaction receipt of the library version the file imports
(`hash`, `status`, `blockNumber`), and no property `transactionHash`. -/
def happyEnv : TransferEnv :=
  { construct := fun _ _ => none
    decimalsRead := Except.ok 18
    parseUnits := libraryParseUnits
    transferCall := fun _ _ => Except.ok { hash := "0xabc" }
    wait := fun tx =>
      Except.ok { props := [("hash", tx.hash), ("status", "1"), ("blockNumber", "7")] } }

/-- A collaborator set in which the write call throws with a short message. -/
def rejectingEnv : TransferEnv :=
  { happyEnv with
    transferCall := fun _ _ =>
      Except.error { shortMessage := some "user rejected action", message := some "long text" } }

/-- A filled-in form with a connected signer. -/
def readyState : State :=
  { initialState with
    account := "0xme", provider := some 1, signer := some 2, tokenAddress := "0xT",
    receiverAddress := "0xR", transferAmount := "1.5" }

/-- A form with token and receiver filled in, the amount left empty and no
signer. -/
def noAmountState : State :=
  { initialState with tokenAddress := "0xT", receiverAddress := "0xR" }

/-- A collaborator set in which the confirmation wait throws an error that has
a message and no short message. -/
def revertingEnv : TransferEnv :=
  { happyEnv with
    wait := fun _ =>
      Except.error { shortMessage := none, message := some "transaction execution reverted" } }

/-- A filled-in form whose amount is no numeral. -/
def badAmountState : State :=
  { readyState with transferAmount := "abc" }

/-- A filled-in form for a token whose cached decimals count is 6. -/
def sixDecimalsState : State :=
  { readyState with decimals := JSNumber.finite 6 }

/-- A filled-in form for a token whose `decimals()` returned 81, with the
amount "1". -/
def manyDecimalsState : State :=
  { readyState with transferAmount := "1", decimals := JSNumber.finite 81 }

/-- A filled-in form at 18 decimals whose amount is ten to the power 136. -/
def hugeAmountState : State :=
  { readyState with transferAmount := String.mk ('1' :: List.replicate 136 '0') }

/-- The text the spec asks for: a property that is present and non-empty. -/
def presentText : Option String → Option String
  | some m => if m = "" then none else some m
  | none => none

/-- The most specific message of an error: its short message when present and
non-empty, otherwise its message when present and non-empty, otherwise the
generic text. -/
def bestMessage (e : JSError) : String :=
  match presentText e.shortMessage, presentText e.message with
  | some m, _ => m
  | none, some m => m
  | none, none => "Hata"

/-- A connect environment without an injected wallet. -/
def noWalletEnv : ConnectEnv :=
  { ethereum := false, chainId := some "5", requestAccounts := none, switchChain := none,
    toHex := fun w => w }

/-- What holds of every reachable state of the metadata loader: every effect
run but the last has its flag set, the last one captured the current
`roContract`, and every logged write came from the last run started, for the
token address current at that moment. -/
def MetaInv (σ : MetaState) : Prop :=
  (∀ i l, σ.effects[i]? = some l → i + 1 < σ.effects.length → l.cancelled = true) ∧
  (∀ i l, σ.effects[i]? = some l → i + 1 = σ.effects.length →
    l.contract = roContract σ.tokenAddress σ.provider) ∧
  (∀ w ∈ σ.writes, w.address = w.current ∧ w.lookup + 1 = w.started)

/-- Two quick edits of the token address; the lookup for the second address
settles first, the one for the first address afterwards. -/
def rapidEdits : List MetaEvent :=
  [ MetaEvent.setProvider 1,
    MetaEvent.setTokenAddress "0xA",
    MetaEvent.setTokenAddress "0xB",
    MetaEvent.settle 2 (Except.ok 6) (Except.ok "BBB"),
    MetaEvent.settle 1 (Except.ok 8) (Except.ok "AAA") ]

/-- A provider and a token address are set; the lookup is in flight. -/
def lookupInFlight : MetaState :=
  metaRun [MetaEvent.setProvider 1, MetaEvent.setTokenAddress "0xA"]

/-- The wallet reports a change of account while the first `refresh` is still
waiting for `eth_accounts`; the second `refresh` finishes first. -/
def overtakenRefresh : List SessionEvent :=
  [ SessionEvent.mount true 1,
    SessionEvent.accountsChanged,
    SessionEvent.resume 1 (Answer.accounts ["0xB"]),
    SessionEvent.resume 1 (Answer.signer 2),
    SessionEvent.resume 1 (Answer.address "0xB"),
    SessionEvent.resume 0 (Answer.accounts ["0xA"]),
    SessionEvent.resume 0 (Answer.signer 1),
    SessionEvent.resume 0 (Answer.address "0xA") ]

/-- The component is torn down while the first `refresh` is in flight. -/
def refreshAfterTeardown : List SessionEvent :=
  [ SessionEvent.mount true 1,
    SessionEvent.unmount,
    SessionEvent.resume 0 (Answer.accounts ["0xA"]),
    SessionEvent.resume 0 (Answer.signer 1) ]

/-! # Theorems -/

/-! ## Lemmas on traces -/

/-- The state after two traces in a row. -/
theorem applyTrace_append (s : State) (t u : List Effect) :
    applyTrace s (t ++ u) = applyTrace (applyTrace s t) u := by
  simp [applyTrace, List.foldl_append]

/-- Only `setBusy` changes the state. -/
theorem applyEffect_of_not_setBusy (s : State) (e : Effect) (h : e.isSetBusy = false) :
    applyEffect s e = s := by
  cases e <;> simp_all [applyEffect, Effect.isSetBusy]

/-- A trace without `setBusy` leaves the state as it was. -/
theorem applyTrace_of_no_setBusy (s : State) (t : List Effect)
    (h : ∀ e ∈ t, e.isSetBusy = false) : applyTrace s t = s := by
  induction t generalizing s with
  | nil => rfl
  | cons e t ih =>
    have he : applyEffect s e = s := applyEffect_of_not_setBusy s e (h e (by simp))
    have ht : ∀ x ∈ t, x.isSetBusy = false := fun x hx => h x (by simp [hx])
    simpa [applyTrace, he] using ih s ht

/-- The `try` block starts with `setBusy(true)` and does not touch the flag again. -/
theorem transferTry_shape (s : State) (sg : Nat) (env : TransferEnv) :
    ∃ rest, (transferTry s sg env).1 = Effect.setBusy true :: rest ∧
      ∀ e ∈ rest, e.isSetBusy = false := by
  unfold transferTry resolveDecimals
  cases env.construct s.tokenAddress sg with
  | some e => exact ⟨_, rfl, by simp [Effect.isSetBusy]⟩
  | none =>
    cases hd : s.decimals <;> simp only [] <;>
    · split
      · exact ⟨_, rfl, by simp [Effect.isSetBusy]⟩
      · split
        · exact ⟨_, rfl, by simp [Effect.isSetBusy]⟩
        · split
          · exact ⟨_, rfl, by simp [Effect.isSetBusy]⟩
          · exact ⟨_, rfl, by simp [Effect.isSetBusy]⟩

/-- The `catch` block does not touch the flag. -/
theorem transferCatch_no_setBusy (r : Option JSError) :
    ∀ e ∈ transferCatch r, e.isSetBusy = false := by
  cases r <;> simp [transferCatch, Effect.isSetBusy]

/-- After validation the trace is `try`, `catch`, `finally`. -/
theorem transferTrace_of_validated (s : State) (env : TransferEnv) (sg : Nat)
    (h : validated s) (hs : s.signer = some sg) :
    transferTrace s env =
      (transferTry s sg env).1 ++ transferCatch (transferTry s sg env).2
        ++ [Effect.setBusy false] := by
  obtain ⟨h1, h2, h3, _⟩ := h
  simp [transferTrace, h1, h2, h3, hs]

/-- After validation the flag is written exactly at both ends of the trace. -/
theorem transferTrace_shape (s : State) (env : TransferEnv) (h : validated s) :
    ∃ mid, transferTrace s env = Effect.setBusy true :: (mid ++ [Effect.setBusy false]) ∧
      ∀ e ∈ mid, e.isSetBusy = false := by
  have hv := h
  obtain ⟨_, _, _, h4⟩ := h
  cases hs : s.signer with
  | none => exact absurd hs h4
  | some sg =>
    obtain ⟨rest, hr, hno⟩ := transferTry_shape s sg env
    refine ⟨rest ++ transferCatch (transferTry s sg env).2, ?_, ?_⟩
    · rw [transferTrace_of_validated s env sg hv hs, hr]; simp
    · intro e he
      rcases List.mem_append.mp he with h1 | h1
      · exact hno e h1
      · exact transferCatch_no_setBusy _ e h1

/-- A failed validation leaves one notice, that of the first missing item. -/
theorem transferTrace_of_not_validated (s : State) (env : TransferEnv) (h : ¬ validated s) :
    ∃ msg, firstMissing s = some msg ∧ transferTrace s env = [Effect.alert msg] := by
  unfold validated at h
  unfold firstMissing preconditions transferTrace
  by_cases h1 : s.tokenAddress = ""
  · exact ⟨"Token adresi gerekli.", by simp [h1], by simp [h1]⟩
  · by_cases h2 : s.receiverAddress = ""
    · exact ⟨"Alıcı adresi gerekli.", by simp [h1, h2], by simp [h1, h2]⟩
    · by_cases h3 : s.transferAmount = ""
      · exact ⟨"Miktar gerekli.", by simp [h1, h2, h3], by simp [h1, h2, h3]⟩
      · have h4 : s.signer = none := by
          by_contra hc
          exact h ⟨h1, h2, h3, hc⟩
        exact ⟨"Önce cüzdanı bağla.", by simp [h1, h2, h3, h4], by simp [h1, h2, h3, h4]⟩

/-! ## Claims on transfer and connect -/

/-- C1: the write call is issued only if token address, receiver address and
amount are non-empty and a signer is present; when any of them is missing no
contract handle is built and no write call is issued. -/
theorem transfer_write_requires_validation (s : State) (env : TransferEnv) :
    ((∃ e ∈ (transfer s env).2, e.isWrite = true) → validated s) ∧
    (¬ validated s →
      ∀ e ∈ (transfer s env).2, e.isWrite = false ∧ e.isNewContract = false) := by
  have key : ¬ validated s →
      ∀ e ∈ (transfer s env).2, e.isWrite = false ∧ e.isNewContract = false := by
    intro h e he
    obtain ⟨msg, _, ht⟩ := transferTrace_of_not_validated s env h
    simp only [transfer, ht, List.mem_singleton] at he
    subst he
    simp [Effect.isWrite, Effect.isNewContract]
  refine ⟨?_, key⟩
  rintro ⟨e, he, hw⟩
  by_contra hv
  have := (key hv e he).1
  simp [hw] at this

/-- Witness for C1: a filled-in form with a signer reaches the write call; a form
without amount and signer builds no contract and issues no write call. -/
theorem transfer_write_requires_validation_witness :
    validated readyState ∧
      ∀ e ∈ (transfer noAmountState happyEnv).2, e.isWrite = false ∧ e.isNewContract = false :=
  ⟨(transfer_write_requires_validation readyState happyEnv).1
      ⟨Effect.writeTransfer "0xR" 1500000000000000000, by decide, rfl⟩,
    (transfer_write_requires_validation noAmountState happyEnv).2 (by decide)⟩

/-- C2: once validation has passed, the trace starts with `setBusy(true)`, ends
with `setBusy(false)` and touches the flag nowhere in between, for every answer
of the collaborators (conversion, write call or wait failing, or all
succeeding); so the flag is true at every write call and false in the state
`transfer()` leaves. -/
theorem transfer_busy_released (s : State) (env : TransferEnv) (h : validated s) :
    (∃ mid, (transfer s env).2 = Effect.setBusy true :: (mid ++ [Effect.setBusy false]) ∧
      ∀ e ∈ mid, e.isSetBusy = false) ∧
    (∀ pre post r v, (transfer s env).2 = pre ++ Effect.writeTransfer r v :: post →
      (applyTrace s pre).busy = true) ∧
    (transfer s env).1.busy = false := by
  obtain ⟨mid, hshape, hno⟩ := transferTrace_shape s env h
  refine ⟨⟨mid, hshape, hno⟩, ?_, ?_⟩
  · intro pre post r v hsplit
    simp only [transfer] at hsplit
    rw [hshape] at hsplit
    cases pre with
    | nil => simp at hsplit
    | cons p pre =>
      simp only [List.cons_append, List.cons.injEq] at hsplit
      obtain ⟨hp, hrest⟩ := hsplit
      subst hp
      have hsub : ∀ e ∈ pre, e.isSetBusy = false := by
        rcases List.append_eq_append_iff.mp hrest with ⟨a, _, ha⟩ | ⟨c, hc, _⟩
        · cases a with
          | nil => simp at ha
          | cons x a =>
            simp only [List.cons_append, List.cons.injEq] at ha
            obtain ⟨_, ha2⟩ := ha
            cases a <;> simp at ha2
        · intro e he
          exact hno e (by rw [hc]; simp [he])
      have := applyTrace_of_no_setBusy (applyEffect s (Effect.setBusy true)) pre hsub
      simp only [applyTrace, List.foldl_cons] at this ⊢
      rw [this]
      rfl
  · simp only [transfer]
    rw [hshape, ← List.cons_append, applyTrace_append]
    rfl

/-- Witness for C2: the write call throws, the flag is false afterwards. -/
theorem transfer_busy_released_witness :
    validated readyState ∧ (transfer readyState rejectingEnv).1.busy = false :=
  ⟨by decide, (transfer_busy_released readyState rejectingEnv (by decide)).2.2⟩

/-- C7: when a precondition is missing, exactly one effect happens: the notice
of the first missing item in the order token address, receiver address, amount,
signer; the state, busy flag included, is left as it was. -/
theorem transfer_validation_order (s : State) (env : TransferEnv) (h : ¬ validated s) :
    ∃ msg, firstMissing s = some msg ∧ (transfer s env).2 = [Effect.alert msg] ∧
      (transfer s env).1 = s := by
  obtain ⟨msg, hm, ht⟩ := transferTrace_of_not_validated s env h
  refine ⟨msg, hm, ?_, ?_⟩
  · simp [transfer, ht]
  · simp [transfer, ht, applyTrace, applyEffect]

/-- Witness for C7: amount and signer both missing, only the amount notice shows. -/
theorem transfer_validation_order_witness :
    ¬ validated noAmountState ∧
      ∃ msg, firstMissing noAmountState = some msg ∧
        (transfer noAmountState happyEnv).2 = [Effect.alert msg] ∧
        (transfer noAmountState happyEnv).1 = noAmountState :=
  ⟨by decide, transfer_validation_order noAmountState happyEnv (by decide)⟩

/-- Line 122 picks the most specific message. -/
theorem failureText_eq_bestMessage (e : JSError) : failureText e = bestMessage e := by
  rcases e with ⟨_ | a, _ | b⟩ <;> simp [failureText, bestMessage, jsOr, presentText] <;>
    split_ifs <;> simp_all

/-- A `try` block that throws has shown no notice. -/
theorem transferTry_no_alert_of_error (s : State) (sg : Nat) (env : TransferEnv) (e : JSError)
    (he : (transferTry s sg env).2 = some e) :
    ∀ x ∈ (transferTry s sg env).1, x.isAlert = false := by
  revert he
  unfold transferTry resolveDecimals
  cases env.construct s.tokenAddress sg with
  | some e => intro _; simp [Effect.isAlert]
  | none =>
    cases hd : s.decimals <;> simp only [] <;>
    · split
      · intro _; simp [Effect.isAlert]
      · split
        · intro _; simp [Effect.isAlert]
        · split
          · intro _; simp [Effect.isAlert]
          · intro h; simp at h

/-- Line 114 takes the cached decimals when finite, and otherwise the answer
of the read call or 18. -/
theorem resolveDecimals_count (s : State) (env : TransferEnv) (d : Nat)
    (hdec : s.decimals = JSNumber.finite d ∨
      (s.decimals = JSNumber.nonFinite ∧ d = orDefault env.decimalsRead 18)) :
    (resolveDecimals s env).2 = d := by
  unfold resolveDecimals
  rcases hdec with h | ⟨h, hd⟩
  · rw [h]
  · rw [h, hd]
    unfold orDefault
    cases env.decimalsRead <;> rfl

/-- C8: after validation, whichever collaborator fails with an error `e` (the
contract constructor, the amount conversion, the write call or the
confirmation wait, the earlier ones having succeeded), the trace holds exactly
one notice, and its text is the short message of `e` when present and
non-empty, otherwise its message when present and non-empty, otherwise
"Hata". -/
theorem transfer_failure_notice (s : State) (env : TransferEnv) (sg d : Nat) (e : JSError)
    (h : validated s) (hs : s.signer = some sg)
    (hdec : s.decimals = JSNumber.finite d ∨
      (s.decimals = JSNumber.nonFinite ∧ d = orDefault env.decimalsRead 18))
    (hfail :
      env.construct s.tokenAddress sg = some e ∨
      (env.construct s.tokenAddress sg = none ∧
        (env.parseUnits s.transferAmount d = Except.error e ∨
          ∃ value, env.parseUnits s.transferAmount d = Except.ok value ∧
            (env.transferCall s.receiverAddress value = Except.error e ∨
              ∃ tx, env.transferCall s.receiverAddress value = Except.ok tx ∧
                env.wait tx = Except.error e)))) :
    (transfer s env).2.filter Effect.isAlert = [Effect.alert (bestMessage e)] := by
  have hd := resolveDecimals_count s env d hdec
  have he : (transferTry s sg env).2 = some e := by
    unfold transferTry
    rcases hfail with hc | ⟨hc, hp | ⟨value, hp, ht | ⟨tx, ht, hw⟩⟩⟩
    · simp only [hc]
    · simp only [hc, hd, hp]
    · simp only [hc, hd, hp, ht]
    · simp only [hc, hd, hp, ht, hw]
  have hno := transferTry_no_alert_of_error s sg env e he
  have h0 : (transferTry s sg env).1.filter Effect.isAlert = [] := by
    rw [List.filter_eq_nil_iff]
    intro x hx
    simp [hno x hx]
  simp only [transfer]
  rw [transferTrace_of_validated s env sg h hs, he]
  simp [List.filter_append, h0, transferCatch, List.filter, Effect.isAlert,
    failureText_eq_bestMessage]

/-- Witness for C8: an amount that is no numeral makes the conversion throw, a
wallet that rejects makes the write call throw, and a reverted transaction
makes the confirmation wait throw; each time the one notice shows the most
specific message of the error. -/
theorem transfer_failure_notice_witness :
    (transfer badAmountState happyEnv).2.filter Effect.isAlert =
        [Effect.alert "invalid FixedNumber string value"] ∧
      (transfer readyState rejectingEnv).2.filter Effect.isAlert =
        [Effect.alert "user rejected action"] ∧
      (transfer readyState revertingEnv).2.filter Effect.isAlert =
        [Effect.alert "transaction execution reverted"] :=
  ⟨transfer_failure_notice badAmountState happyEnv 2 18
      (libraryError "invalid FixedNumber string value") (by decide) rfl (Or.inl rfl)
      (Or.inr ⟨rfl, Or.inl rfl⟩),
    transfer_failure_notice readyState rejectingEnv 2 18
      { shortMessage := some "user rejected action", message := some "long text" }
      (by decide) rfl (Or.inl rfl)
      (Or.inr ⟨rfl, Or.inr ⟨1500000000000000000, rfl, Or.inl rfl⟩⟩),
    transfer_failure_notice readyState revertingEnv 2 18
      { shortMessage := none, message := some "transaction execution reverted" }
      (by decide) rfl (Or.inl rfl)
      (Or.inr ⟨rfl, Or.inr ⟨1500000000000000000, rfl, Or.inr ⟨{ hash := "0xabc" }, rfl, rfl⟩⟩⟩)⟩

/-- On the success path the only notice is "Transfer OK: " followed by the
text of the property `transactionHash` of the receipt. -/
theorem transfer_success_notice (s : State) (env : TransferEnv) (sg : Nat) (value : Int)
    (tx : Tx) (receipt : Receipt) (h : validated s) (hs : s.signer = some sg)
    (hc : env.construct s.tokenAddress sg = none)
    (hp : env.parseUnits s.transferAmount (resolveDecimals s env).2 = Except.ok value)
    (ht : env.transferCall s.receiverAddress value = Except.ok tx)
    (hw : env.wait tx = Except.ok receipt) :
    (transfer s env).2.filter Effect.isAlert =
      [Effect.alert ("Transfer OK: " ++ jsString (receipt.get "transactionHash"))] := by
  have hr : (resolveDecimals s env).1.filter Effect.isAlert = [] := by
    unfold resolveDecimals
    cases s.decimals <;> simp [List.filter, Effect.isAlert]
  simp only [transfer]
  rw [transferTrace_of_validated s env sg h hs]
  simp [transferTry, hc, hp, ht, hw, transferCatch, List.filter_append, hr, List.filter,
    Effect.isAlert]

/-- C6 (evaluation): every call succeeds and the receipt carries the
transaction identifier under the property `hash`; the notice reads
"Transfer OK: undefined" and does not contain the identifier "0xabc". -/
theorem transfer_success_notice_undefined :
    happyEnv.transferCall "0xR" 1500000000000000000 = Except.ok { hash := "0xabc" } ∧
    happyEnv.wait { hash := "0xabc" } =
      Except.ok { props := [("hash", "0xabc"), ("status", "1"), ("blockNumber", "7")] } ∧
    (transfer readyState happyEnv).2 =
      [Effect.setBusy true, Effect.newContract "0xT" 2,
       Effect.writeTransfer "0xR" 1500000000000000000, Effect.waitReceipt "0xabc",
       Effect.alert "Transfer OK: undefined", Effect.setBusy false] := by
  refine ⟨rfl, rfl, ?_⟩
  decide

/-- C9: without an injected wallet `connect()` shows the notice
"MetaMask gerekli." and nothing else: no RPC request is issued, the call
returns normally, and the state (account, signer and provider included) is
unchanged. -/
theorem connect_without_wallet (s : State) (env : ConnectEnv) (h : env.ethereum = false) :
    (connect s env).2 = [Effect.alert "MetaMask gerekli."] ∧
    (∀ e ∈ (connect s env).2, e.isRequest = false) ∧
    (connectTrace env).2 = none ∧
    (connect s env).1 = s := by
  simp [connect, connectTrace, h, applyTrace, applyEffect, Effect.isRequest]

/-- Witness for C9: no injected wallet, only the notice. -/
theorem connect_without_wallet_witness :
    noWalletEnv.ethereum = false ∧
      (connect readyState noWalletEnv).2 = [Effect.alert "MetaMask gerekli."] :=
  ⟨rfl, (connect_without_wallet readyState noWalletEnv rfl).1⟩

/-! ## Claims on the token metadata loader -/

/-- A contract handle is for the token address it was built from. -/
theorem roContract_address (tok : String) (prov : Option Nat) (c : String × Nat)
    (h : roContract tok prov = some c) : c.1 = tok := by
  unfold roContract at h
  split at h
  · simp at h
  · cases prov with
    | none => simp at h
    | some p =>
      simp at h
      rw [← h]

/-- The cleanup keeps the number of effect runs. -/
theorem cleanupLast_length (l : List Lookup) : (cleanupLast l).length = l.length := by
  induction l with
  | nil => rfl
  | cons a l ih =>
    cases l with
    | nil => rfl
    | cons b l => simpa [cleanupLast] using ih

/-- After the cleanup every effect run so far is cancelled. -/
theorem cleanupLast_cancelled (l : List Lookup) (i : Nat) (x : Lookup)
    (hall : ∀ j y, l[j]? = some y → j + 1 < l.length → y.cancelled = true)
    (hx : (cleanupLast l)[i]? = some x) : x.cancelled = true := by
  induction l generalizing i with
  | nil => simp [cleanupLast] at hx
  | cons a l ih =>
    cases l with
    | nil =>
      cases i with
      | zero =>
        simp [cleanupLast] at hx
        rw [← hx]
      | succ i => simp [cleanupLast] at hx
    | cons b l =>
      cases i with
      | zero =>
        simp [cleanupLast] at hx
        rw [← hx]
        exact hall 0 a (by simp) (by simp)
      | succ i =>
        simp only [cleanupLast, List.getElem?_cons_succ] at hx
        refine ih i ?_ hx
        intro j y hj hlt
        exact hall (j + 1) y (by simpa using hj) (by simpa using hlt)

/-- The invariant holds after the first render. -/
theorem metaInv_init : MetaInv metaInit := by
  refine ⟨?_, ?_, ?_⟩
  · intro i l _ hlt
    simp [metaInit] at hlt
  · intro i l hl hi
    simp [metaInit] at hi
    subst hi
    simp [metaInit] at hl
    subst hl
    rfl
  · intro w hw
    simp [metaInit] at hw

/-- A render preserves the invariant. -/
theorem metaInv_rerender (σ : MetaState) (tok : String) (prov : Option Nat) (h : MetaInv σ) :
    MetaInv (rerender σ tok prov) := by
  obtain ⟨h1, h2, h3⟩ := h
  unfold rerender
  split
  · rename_i hc
    refine ⟨h1, ?_, h3⟩
    intro i l hl hi
    have := h2 i l hl hi
    rcases hc with ⟨ht, hp⟩ | ⟨ho, hn⟩
    · simp only [ht, hp]; exact this
    · simp only [hn]; rw [this, ho]
  · refine ⟨?_, ?_, h3⟩
    · intro i l hl hi
      simp only [List.length_append, cleanupLast_length, List.length_singleton] at hi
      have hi2 : i < (cleanupLast σ.effects).length := by
        rw [cleanupLast_length]; omega
      simp only [List.getElem?_append_left hi2] at hl
      exact cleanupLast_cancelled σ.effects i l h1 hl
    · intro i l hl hi
      simp only [List.length_append, cleanupLast_length, List.length_singleton] at hi
      have hi2 : i = (cleanupLast σ.effects).length := by
        rw [cleanupLast_length]; omega
      subst hi2
      simp at hl
      rw [← hl]

/-- A settling lookup preserves the invariant. -/
theorem metaInv_settle (σ : MetaState) (i : Nat) (d : Except JSError Nat)
    (sym : Except JSError String) (h : MetaInv σ) : MetaInv (settle σ i d sym) := by
  obtain ⟨h1, h2, h3⟩ := h
  unfold settle
  split
  · exact ⟨h1, h2, h3⟩
  · rename_i l hl
    split
    · exact ⟨h1, h2, h3⟩
    · rename_i c hc
      have hset1 : ∀ (j : Nat) (y : Lookup), (σ.effects.set i { l with settled := true })[j]? = some y →
          ∃ z, σ.effects[j]? = some z ∧ y.cancelled = z.cancelled ∧ y.contract = z.contract := by
        intro j y hj
        rw [List.getElem?_set] at hj
        split at hj
        · rename_i hij
          subst hij
          split at hj
          · simp at hj
            subst hj
            exact ⟨l, hl, rfl, rfl⟩
          · simp at hj
        · exact ⟨y, hj, rfl, rfl⟩
      have g1 : ∀ (j : Nat) (y : Lookup), (σ.effects.set i { l with settled := true })[j]? = some y →
          j + 1 < (σ.effects.set i { l with settled := true }).length → y.cancelled = true := by
        intro j y hj hlt
        obtain ⟨z, hz, hzc, _⟩ := hset1 j y hj
        rw [hzc]
        exact h1 j z hz (by simpa using hlt)
      have g2 : ∀ (j : Nat) (y : Lookup), (σ.effects.set i { l with settled := true })[j]? = some y →
          j + 1 = (σ.effects.set i { l with settled := true }).length →
          y.contract = roContract σ.tokenAddress σ.provider := by
        intro j y hj hlt
        obtain ⟨z, hz, _, hzc⟩ := hset1 j y hj
        rw [hzc]
        exact h2 j z hz (by simpa using hlt)
      split
      · exact ⟨h1, h2, h3⟩
      · split
        · exact ⟨g1, g2, h3⟩
        · rename_i hcan
          refine ⟨g1, g2, ?_⟩
          intro w hw
          rcases List.mem_append.mp hw with hw | hw
          · exact h3 w hw
          · simp only [List.mem_singleton] at hw
            subst hw
            have hilt : i < σ.effects.length := by
              rcases List.getElem?_eq_some_iff.mp hl with ⟨hlt, _⟩
              exact hlt
            have hlast : i + 1 = σ.effects.length := by
              by_contra hne
              have := h1 i l hl (by omega)
              simp [this] at hcan
            have hro := h2 i l hl hlast
            rw [hc] at hro
            exact ⟨roContract_address _ _ c hro.symm, hlast⟩

/-- Every reachable state of the metadata loader satisfies the invariant. -/
theorem metaInv_run (events : List MetaEvent) : MetaInv (metaRun events) := by
  unfold metaRun
  suffices hgen : ∀ σ, MetaInv σ → MetaInv (events.foldl metaStep σ) from hgen _ metaInv_init
  induction events with
  | nil => intro σ h; exact h
  | cons ev evs ih =>
    intro σ h
    simp only [List.foldl_cons]
    apply ih
    cases ev with
    | setTokenAddress a => exact metaInv_rerender σ a σ.provider h
    | setProvider p => exact metaInv_rerender σ σ.tokenAddress (some p) h
    | settle i d sym => exact metaInv_settle σ i d sym h

/-- C3: in every state reached by any sequence of address changes, provider
installation and lookups settling in any order, each write of decimals and
symbol was made by the effect run started last, whose address is the token
address held at that moment; and a lookup that is not the last one started
writes nothing when it settles. -/
theorem metadata_no_stale_write (events : List MetaEvent) :
    (∀ w ∈ (metaRun events).writes, w.address = w.current ∧ w.lookup + 1 = w.started) ∧
    (∀ i d sym, i + 1 < (metaRun events).effects.length →
      (settle (metaRun events) i d sym).decimals = (metaRun events).decimals ∧
      (settle (metaRun events) i d sym).symbol = (metaRun events).symbol ∧
      (settle (metaRun events) i d sym).writes = (metaRun events).writes) := by
  obtain ⟨h1, _, h3⟩ := metaInv_run events
  refine ⟨h3, ?_⟩
  intro i d sym hi
  unfold settle
  split
  · exact ⟨rfl, rfl, rfl⟩
  · rename_i l hl
    have hcan := h1 i l hl hi
    split
    · exact ⟨rfl, rfl, rfl⟩
    · split
      · exact ⟨rfl, rfl, rfl⟩
      · simp [hcan]

/-- Witness for C3: two quick edits; only the lookup of the second address writes,
and the late answer for the first address changes nothing. -/
theorem metadata_no_stale_write_witness :
    (metaRun rapidEdits).writes =
        [{ lookup := 2, address := "0xB", current := "0xB", started := 3,
           decimals := JSNumber.finite 6, symbol := "BBB" }] ∧
      (settle (metaRun rapidEdits) 1 (Except.ok 8) (Except.ok "AAA")).decimals =
        (metaRun rapidEdits).decimals :=
  ⟨by decide,
    ((metadata_no_stale_write rapidEdits).2 1 (Except.ok 8) (Except.ok "AAA") (by decide)).1⟩

/-- C4: when a lookup that has a contract, is not cancelled and has not yet
settled gets its answers, a failed decimals call yields 18 and a failed symbol
call yields "TOKEN", each independently of the other call, whose returned
value is stored when it succeeds. -/
theorem metadata_fallbacks (σ : MetaState) (i : Nat) (l : Lookup) (c : String × Nat)
    (hl : σ.effects[i]? = some l) (hc : l.contract = some c)
    (hlive : l.cancelled = false) (hfresh : l.settled = false)
    (e1 e2 : JSError) (n : Nat) (v : String) :
    ((settle σ i (Except.error e1) (Except.error e2)).decimals = JSNumber.finite 18 ∧
      (settle σ i (Except.error e1) (Except.error e2)).symbol = "TOKEN") ∧
    ((settle σ i (Except.error e1) (Except.ok v)).decimals = JSNumber.finite 18 ∧
      (settle σ i (Except.error e1) (Except.ok v)).symbol = v) ∧
    ((settle σ i (Except.ok n) (Except.error e2)).decimals = JSNumber.finite n ∧
      (settle σ i (Except.ok n) (Except.error e2)).symbol = "TOKEN") := by
  simp [settle, hl, hc, hlive, hfresh, orDefault]

/-- Witness for C4: the decimals call fails and the symbol call succeeds. -/
theorem metadata_fallbacks_witness :
    (settle lookupInFlight 1 (Except.error ⟨none, none⟩) (Except.ok "AAA")).decimals =
        JSNumber.finite 18 ∧
      (settle lookupInFlight 1 (Except.error ⟨none, none⟩) (Except.ok "AAA")).symbol = "AAA" :=
  (metadata_fallbacks lookupInFlight 1
    { contract := some ("0xA", 1), cancelled := false, settled := false } ("0xA", 1)
    (by decide) rfl rfl rfl ⟨none, none⟩ ⟨none, none⟩ 6 "AAA").2.1

/-- C10 (evaluation): the session effect has no cancellation flag. A `refresh`
overtaken by a later one still writes signer and account, so the session ends
up holding the answer of the older call; and a `refresh` in flight at teardown
still writes the signer afterwards. -/
theorem session_refresh_unguarded :
    ((sessionRun overtakenRefresh).account = "0xA" ∧
      (sessionRun overtakenRefresh).signer = some 1 ∧
      (sessionRun overtakenRefresh).refreshes = [RefreshPc.done, RefreshPc.done] ∧
      (sessionRun overtakenRefresh).writes.getLast? =
        some { refresh := 0, started := 2, mounted := true }) ∧
    ((sessionRun refreshAfterTeardown).signer = some 1 ∧
      (sessionRun refreshAfterTeardown).writes =
        [{ refresh := 0, started := 1, mounted := false }]) := by
  decide

/-! ## Claims on the amount conversion -/

/-- Reading digits with a carried-in value. -/
theorem readDigits_foldl (cs : List Char) (acc : Nat) :
    cs.foldl (fun a c => 10 * a + digitValue c) acc = acc * 10 ^ cs.length + readDigits cs := by
  induction cs generalizing acc with
  | nil => simp [readDigits]
  | cons c cs ih =>
    simp only [List.foldl_cons, List.length_cons, readDigits]
    rw [ih (10 * acc + digitValue c), ih (10 * 0 + digitValue c)]
    simp only [readDigits]
    ring

/-- Reading two digit strings in a row. -/
theorem readDigits_append (a b : List Char) :
    readDigits (a ++ b) = readDigits a * 10 ^ b.length + readDigits b := by
  simp only [readDigits, List.foldl_append]
  rw [readDigits_foldl b]
  simp only [readDigits]

/-- Reading a digit string by its leading digit. -/
theorem readDigits_cons (c : Char) (cs : List Char) :
    readDigits (c :: cs) = digitValue c * 10 ^ cs.length + readDigits cs := by
  have := readDigits_append [c] cs
  simpa [readDigits] using this

/-- A string of zeros reads as zero. -/
theorem readDigits_zeros (k : Nat) : readDigits (List.replicate k '0') = 0 := by
  induction k with
  | zero => rfl
  | succ k ih =>
    rw [List.replicate_succ, readDigits_cons, ih]
    simp [digitValue]

/-- The ten characters that are decimal digits. -/
theorem decimalDigit_cases (c : Char) (h : (decimalDigit c).isSome = true) :
    c = '0' ∨ c = '1' ∨ c = '2' ∨ c = '3' ∨ c = '4' ∨ c = '5' ∨ c = '6' ∨ c = '7' ∨
      c = '8' ∨ c = '9' := by
  unfold decimalDigit at h
  by_contra hne
  simp only [not_or] at hne
  obtain ⟨h0, h1, h2, h3, h4, h5, h6, h7, h8, h9⟩ := hne
  simp [h0, h1, h2, h3, h4, h5, h6, h7, h8, h9] at h

/-- On a decimal digit the library reads the value the digit denotes, and such
a character is neither the point nor the minus sign. -/
theorem decimalDigit_spec (c : Char) (h : (decimalDigit c).isSome = true) :
    c.isDigit = true ∧ digitValue c = (decimalDigit c).getD 0 ∧ (c != '.') = true ∧
      c ≠ '-' := by
  rcases decimalDigit_cases c h with h | h | h | h | h | h | h | h | h | h <;>
    subst h <;> decide

/-- The digits before the point, read by the library, have the value they
denote. -/
theorem readDigits_eq_wholeValue (w : List Char)
    (hw : ∀ c ∈ w, (decimalDigit c).isSome = true) : (readDigits w : ℚ) = wholeValue w := by
  induction w with
  | nil => simp [readDigits, wholeValue]
  | cons c cs ih =>
    rw [readDigits_cons]
    simp only [wholeValue]
    push_cast
    rw [ih (fun x hx => hw x (by simp [hx])), (decimalDigit_spec c (hw c (by simp))).2.1]

/-- A fraction of k digits, times ten to the k, is its digits read as an
integer. -/
theorem fractionValue_scaled (f : List Char)
    (hf : ∀ c ∈ f, (decimalDigit c).isSome = true) :
    fractionValue f * 10 ^ f.length = (readDigits f : ℚ) := by
  induction f with
  | nil => simp [fractionValue, readDigits]
  | cons c cs ih =>
    rw [readDigits_cons]
    simp only [fractionValue, List.length_cons]
    push_cast
    rw [← ih (fun x hx => hf x (by simp [hx])), (decimalDigit_spec c (hf c (by simp))).2.1]
    field_simp
    ring

/-- The digits the library reads for a numeral, padded to `d` fraction digits,
are the value of the numeral times ten to the `d`. -/
theorem readDigits_padded (w f : List Char) (d : Nat)
    (hw : ∀ c ∈ w, (decimalDigit c).isSome = true)
    (hf : ∀ c ∈ f, (decimalDigit c).isSome = true) (hfd : f.length ≤ d) :
    (readDigits (w ++ (f ++ List.replicate (d - f.length) '0')) : ℚ) =
      decimalValue w f * 10 ^ d := by
  rw [readDigits_append, readDigits_append, readDigits_zeros, decimalValue]
  obtain ⟨k, hk⟩ := Nat.exists_eq_add_of_le hfd
  have h1 := fractionValue_scaled f hf
  have h2 := readDigits_eq_wholeValue w hw
  simp only [List.length_append, List.length_replicate]
  push_cast
  rw [← h1, ← h2, hk]
  simp only [Nat.add_sub_cancel_left]
  ring

/-- The split at the first point recovers the whole digits. -/
theorem wholePart_numeral (w rest : List Char)
    (hw : ∀ c ∈ w, (decimalDigit c).isSome = true) :
    wholePart (w ++ '.' :: rest) = w ∧ fractionPart (w ++ '.' :: rest) = rest ∧
      wholePart w = w ∧ fractionPart w = [] := by
  induction w with
  | nil => simp [wholePart, fractionPart]
  | cons c cs ih =>
    have hc := (decimalDigit_spec c (hw c (by simp))).2.2.1
    obtain ⟨i1, i2, i3, i4⟩ := ih (fun x hx => hw x (by simp [hx]))
    unfold wholePart fractionPart at *
    simp only [List.cons_append, List.takeWhile_cons, List.dropWhile_cons, hc, if_true]
    exact ⟨by rw [i1], i2, by rw [i3], i4⟩

/-- The bound of the signed range is two to the power 511. -/
theorem signedLimit_eq : signedLimit = 2 ^ 511 := by
  norm_num [signedLimit]

/-- On the text of a non-negative decimal numeral with at most `d` fraction
digits, `d` at most 80 and a scaled value in range, the library returns the
value of the numeral times ten to the `d`. -/
theorem parseUnits_numeral (text : String) (w f : List Char) (d : Nat)
    (ht : isNumeralText text w f) (hfd : f.length ≤ d) (hd : d ≤ 80)
    (hr : decimalValue w f * 10 ^ d < 2 ^ 511) :
    ∃ n : Int, parseUnits text d = Except.ok n ∧ (n : ℚ) = decimalValue w f * 10 ^ d := by
  obtain ⟨hw, hf, hlen, htext⟩ := ht
  have hsplit := wholePart_numeral w f hw
  have hwp : wholePart text.toList = w ∧ fractionPart text.toList = f := by
    rcases htext with h | ⟨h, hnil⟩
    · rw [h]; exact ⟨hsplit.1, hsplit.2.1⟩
    · rw [h, hnil]; exact ⟨hsplit.2.2.1, hsplit.2.2.2⟩
  have hneg : (text.toList.head? == some '-') = false := by
    have hhead : ∀ c, text.toList.head? = some c → c ≠ '-' := by
      intro c hc
      rcases htext with h | ⟨h, _⟩
      · rw [h] at hc
        cases w with
        | nil =>
          simp at hc
          rw [← hc]
          decide
        | cons x xs =>
          simp at hc
          rw [← hc]
          exact (decimalDigit_spec x (hw x (by simp))).2.2.2
      · rw [h] at hc
        cases w with
        | nil => simp at hc
        | cons x xs =>
          simp at hc
          rw [← hc]
          exact (decimalDigit_spec x (hw x (by simp))).2.2.2
    cases hh : text.toList.head? with
    | none => rfl
    | some c =>
      have := hhead c hh
      simp [this]
  have hwd : w.all Char.isDigit = true :=
    List.all_eq_true.mpr (fun c hc => (decimalDigit_spec c (hw c hc)).1)
  have hfdg : f.all Char.isDigit = true :=
    List.all_eq_true.mpr (fun c hc => (decimalDigit_spec c (hf c hc)).1)
  have hdrop : f.drop d = [] := List.drop_eq_nil_of_le hfd
  have htake : (f ++ List.replicate (d - f.length) '0').take d =
      f ++ List.replicate (d - f.length) '0' := by
    apply List.take_of_length_le
    simp only [List.length_append, List.length_replicate]
    omega
  have hval := readDigits_padded w f d hw hf hfd
  have hlt : readDigits (w ++ (f ++ List.replicate (d - f.length) '0')) < signedLimit := by
    have hq : ((signedLimit : Nat) : ℚ) = 2 ^ 511 := by
      simp only [signedLimit_eq, Nat.cast_pow, Nat.cast_ofNat]
    have : (readDigits (w ++ (f ++ List.replicate (d - f.length) '0')) : ℚ) <
        (signedLimit : ℚ) :=
      lt_of_eq_of_lt hval (lt_of_lt_of_eq hr hq.symm)
    exact_mod_cast this
  refine ⟨((readDigits (w ++ (f ++ List.replicate (d - f.length) '0')) : Nat) : Int), ?_, ?_⟩
  · unfold parseUnits
    simp only [hneg, hwp.1, hwp.2, hwd, hfdg, hdrop, htake, Bool.false_eq_true, if_false]
    have h80 : ¬ 80 < d := by omega
    have hlo : -(signedLimit : Int) ≤
        ((readDigits (w ++ (f ++ List.replicate (d - f.length) '0')) : Nat) : Int) := by
      have : (0 : Int) ≤ (signedLimit : Int) := Int.ofNat_nonneg _
      have : (0 : Int) ≤
          ((readDigits (w ++ (f ++ List.replicate (d - f.length) '0')) : Nat) : Int) :=
        Int.ofNat_nonneg _
      omega
    have hhi : ((readDigits (w ++ (f ++ List.replicate (d - f.length) '0')) : Nat) : Int) <
        (signedLimit : Int) := by
      exact_mod_cast hlt
    simp [hlen, h80, hlo, hhi]
  · push_cast
    exact hval

/-- When construction and conversion succeed the `try` block issues one write call. -/
theorem transferTry_write (s : State) (sg : Nat) (env : TransferEnv) (value : Int)
    (hc : env.construct s.tokenAddress sg = none)
    (hp : env.parseUnits s.transferAmount (resolveDecimals s env).2 = Except.ok value) :
    (transferTry s sg env).1.filter Effect.isWrite =
      [Effect.writeTransfer s.receiverAddress value] := by
  have hr : (resolveDecimals s env).1.filter Effect.isWrite = [] := by
    unfold resolveDecimals
    cases s.decimals <;> simp [List.filter, Effect.isWrite]
  unfold transferTry
  simp only [hc, hp]
  split
  · simp [List.filter_append, hr, List.filter, Effect.isWrite]
  · split
    · simp [List.filter_append, hr, List.filter, Effect.isWrite]
    · simp [List.filter_append, hr, List.filter, Effect.isWrite]

/-- The `catch` block issues no write call. -/
theorem transferCatch_no_write (r : Option JSError) :
    (transferCatch r).filter Effect.isWrite = [] := by
  cases r <;> simp [transferCatch, List.filter, Effect.isWrite]

set_option maxRecDepth 100000 in
/-- C5 (as stated, refuted): "1" is a decimal numeral without fractional
digits, yet at 81 decimals the conversion throws and `transfer()` issues no
write call; and at 18 decimals the numeral ten to the power 136 is out of the
range of the conversion, which throws as well. -/
theorem transfer_amount_conversion_limits :
    (isNumeralText manyDecimalsState.transferAmount ['1'] [] ∧
      manyDecimalsState.decimals = JSNumber.finite 81 ∧
      libraryParseUnits manyDecimalsState.transferAmount 81 =
        Except.error (libraryError "invalid FixedNumber decimals (too large)") ∧
      (transfer manyDecimalsState happyEnv).2.filter Effect.isWrite = [] ∧
      (transfer manyDecimalsState happyEnv).2.filter Effect.isAlert =
        [Effect.alert "invalid FixedNumber decimals (too large)"]) ∧
    (isNumeralText hugeAmountState.transferAmount ('1' :: List.replicate 136 '0') [] ∧
      hugeAmountState.decimals = JSNumber.finite 18 ∧
      libraryParseUnits hugeAmountState.transferAmount 18 =
        Except.error (libraryError "overflow") ∧
      (transfer hugeAmountState happyEnv).2.filter Effect.isWrite = []) := by
  refine ⟨⟨⟨by decide, by decide, by decide, Or.inr ⟨rfl, rfl⟩⟩, rfl, rfl, by decide, by decide⟩,
    ⟨⟨by decide, by decide, by decide, Or.inr ⟨by decide, rfl⟩⟩, rfl, rfl, by decide⟩⟩

/-- C5 (amended): with the conversion of the library, for a decimals count `d`
of at most 80 (the cached count, or the count read on demand, or 18) and an
amount text that is a non-negative decimal numeral with at most `d` fractional
digits whose scaled value is below two to the power 511, the single write call
of `transfer()` carries the value of the numeral times ten to the power `d`;
"1.5" gives 1500000000000000000 at 18 decimals and 1500000 at 6. -/
theorem transfer_amount_scaled (s : State) (env : TransferEnv) (sg d : Nat) (w f : List Char)
    (hv : validated s) (hs : s.signer = some sg)
    (hc : env.construct s.tokenAddress sg = none)
    (hdec : s.decimals = JSNumber.finite d ∨
      (s.decimals = JSNumber.nonFinite ∧ d = orDefault env.decimalsRead 18))
    (hp : env.parseUnits = libraryParseUnits)
    (ht : isNumeralText s.transferAmount w f) (hfd : f.length ≤ d) (hd : d ≤ 80)
    (hr : decimalValue w f * 10 ^ d < 2 ^ 511) :
    (∃ n : Int,
      (transfer s env).2.filter Effect.isWrite = [Effect.writeTransfer s.receiverAddress n] ∧
      (n : ℚ) = decimalValue w f * 10 ^ d) ∧
    libraryParseUnits "1.5" 18 = Except.ok 1500000000000000000 ∧
    libraryParseUnits "1.5" 6 = Except.ok 1500000 := by
  refine ⟨?_, rfl, rfl⟩
  obtain ⟨n, hpn, hval⟩ := parseUnits_numeral s.transferAmount w f d ht hfd hd hr
  refine ⟨n, ?_, hval⟩
  have hcount := resolveDecimals_count s env d hdec
  have hw := transferTry_write s sg env n hc (by
    rw [hp, hcount]
    unfold libraryParseUnits
    rw [hpn])
  simp only [transfer]
  rw [transferTrace_of_validated s env sg hv hs]
  simp [List.filter_append, hw, transferCatch_no_write, List.filter, Effect.isWrite]

/-- Witness for C5: the amount "1.5" with a cached decimals count of 6. -/
theorem transfer_amount_scaled_witness :
    sixDecimalsState.decimals = JSNumber.finite 6 ∧
      isNumeralText sixDecimalsState.transferAmount ['1'] ['5'] ∧
      ∃ n : Int,
        (transfer sixDecimalsState happyEnv).2.filter Effect.isWrite =
          [Effect.writeTransfer "0xR" n] ∧
        (n : ℚ) = decimalValue ['1'] ['5'] * 10 ^ 6 :=
  ⟨rfl, ⟨by decide, by decide, by decide, Or.inl rfl⟩,
    (transfer_amount_scaled sixDecimalsState happyEnv 2 6 ['1'] ['5'] (by decide) rfl rfl
      (Or.inl rfl) rfl ⟨by decide, by decide, by decide, Or.inl rfl⟩ (by decide) (by decide)
      (by
        simp +decide only [decimalValue, wholeValue, fractionValue, decimalDigit]
        norm_num)).1⟩

end Main
